import Mathlib

/-!
Shallow embedding of `src/redis.go` (package `rcache`): a Redis-backed cache
facade with pluggable marshal/unmarshal functions, an expiration floor, and
hit/miss counters.

Modelling conventions:
- `time.Duration` is `Int` (nanoseconds, as in Go).
- Go errors are the inductive `GoErr`; `errors.Wrap(err, msg)` is
  `GoErr.wrap msg err`, `errors.WithStack err` is `GoErr.withStack err`,
  the sentinel `ErrCacheMiss` is `GoErr.errCacheMiss` and `redis.ErrNil`
  is `GoErr.errNil` (identity comparison is constructor equality).
- The external collaborators (the redigo pool and the Redis server) are
  oracles: per call, an environment record says what the pool and the
  store answer. Calls into the collaborators (pool acquisition, `conn.Do`,
  `conn.Close`) are recorded as an event trace, each tagged with the
  connection value it targets; the Go runtime panic that a `Do`/`Close`
  on a nil connection interface would raise is not modelled, the trace
  records the target value instead.
- Go `uint64` counters are `Nat`: the facade only ever increments them by
  one, so wraparound at 2^64 is not modelled.
- `Unmarshal` is modelled as returning the new destination value on
  success (Go mutates the destination in place).
-/

namespace RCache

/-- One nanosecond units: `time.Second` in Go. -/
def timeSecond : Int := 1000000000

/-- `time.Minute` in Go. -/
def timeMinute : Int := 60 * timeSecond

/-- Round-half-to-even division: the nearest integer to p / q, ties going
to the even integer (q > 0). -/
def rneDiv (p q : Nat) : Nat :=
  let d := p / q
  let r := p % q
  if 2 * r < q then d
  else if q < 2 * r then d + 1
  else if d % 2 = 0 then d else d + 1

/-- Fuel-driven floor base-2 logarithm; exact whenever fuel ≥ n. -/
def log2F : Nat → Nat → Nat
  | 0, _ => 0
  | fuel + 1, n => if 2 ≤ n then log2F fuel (n / 2) + 1 else 0

/-- Floor base-2 logarithm (n itself is always enough fuel). -/
def natLog2 (n : Nat) : Nat := log2F n n

/-- IEEE binary64 rounding (round to nearest, ties to even) of the
nonnegative rational a / b (b > 0), as a dyadic pair (m, E) of value
m * 2^E with a 53-bit significand. The exponent is unbounded: every value
arising from `Duration.Seconds` is far from both the overflow and the
subnormal range of binary64, so neither needs modelling. -/
def floatRound (a b : Nat) : Nat × Int :=
  if a = 0 then (0, 0)
  else
    let s := natLog2 b + 1
    let a2 := a * 2 ^ s
    let e := natLog2 (a2 / b)
    if e ≤ 52 then (rneDiv (a2 * 2 ^ (52 - e)) b, (e : Int) - 52 - s)
    else (rneDiv a2 (b * 2 ^ (e - 52)), (e : Int) - 52 - s)

/-- Binary64 addition of a nonnegative integer (exactly representable:
the second count of any int64 duration is below 2^53) and a nonnegative
dyadic float: the exact sum, correctly rounded. -/
def floatAddInt (x : Nat) : Nat × Int → Nat × Int
  | (m, e) =>
    if 0 ≤ e then floatRound (x + m * 2 ^ e.toNat) 1
    else floatRound (x * 2 ^ (-e).toNat + m) (2 ^ (-e).toNat)

/-- Go `int(f)` on a nonnegative binary64 value: truncation toward zero. -/
def floatTrunc : Nat × Int → Nat
  | (m, e) => if 0 ≤ e then m * 2 ^ e.toNat else m / 2 ^ (-e).toNat

/-- Go `int(d.Seconds())` for a nonnegative duration d in nanoseconds:
`Duration.Seconds` returns `float64(sec) + float64(nsec)/1e9` computed in
binary64 (sec the truncated second count, nsec the remainder), and the
`int` conversion truncates the float toward zero. Because of binary64
rounding this is not always the truncated second count of d. -/
def goSecondsTrunc (d : Nat) : Nat :=
  floatTrunc (floatAddInt (d / 1000000000) (floatRound (d % 1000000000) 1000000000))

/-- Go `int(d.Seconds())` on an int64 duration. `Seconds` and the `int`
conversion are both odd functions of d, so the negative case mirrors the
nonnegative one. -/
def durSeconds (d : Int) : Int :=
  if 0 ≤ d then (goSecondsTrunc d.toNat : Int)
  else -(goSecondsTrunc (-d).toNat : Int)

/-- Go error values as they appear in `redis.go` and its collaborators. -/
inductive GoErr where
  | errCacheMiss : GoErr
  | errNil : GoErr
  | base : String → GoErr
  | wrap : String → GoErr → GoErr
  | withStack : GoErr → GoErr
  deriving DecidableEq, Repr

/-- A `redis.Conn` interface value: nil, or a live connection identified by
a pool-assigned id. -/
inductive ConnVal where
  | nil : ConnVal
  | live : Nat → ConnVal
  deriving DecidableEq, Repr

/-- A request issued through `conn.Do`. -/
inductive DoReq where
  | setex : String → Int → List Nat → DoReq
  | get : String → DoReq
  deriving DecidableEq, Repr

/-- Observable calls into the collaborators, in program order. -/
inductive Event where
  | poolGet : Nat → Event
  | storeDo : ConnVal → DoReq → Event
  | unmarshalCall : List Nat → Event
  | connClose : ConnVal → Event
  deriving DecidableEq, Repr

/-- The injected encoding strategy of a `Cache` (`Marshal`/`Unmarshal`
fields), over an object type `α` standing for Go `interface\x7b\x7d`. -/
structure CacheModel (α : Type) where
  Marshal : α → Except GoErr (List Nat)
  Unmarshal : List Nat → α → Except GoErr α

/-- The mutable fields of a `Cache`: the cached connection field `conn`
and the two counters. -/
structure CacheState where
  conn : ConnVal
  hits : Nat
  misses : Nat
  deriving DecidableEq, Repr

/-- `NewRedisCache`: the zero-valued mutable fields of a fresh `Cache`
(the pool and the strategy functions live in `CacheModel`). -/
def NewRedisCache : CacheState :=
  { conn := ConnVal.nil, hits := 0, misses := 0 }

/-- What the pool answers for one `c.Redis.Get()` call: the id of the
fresh connection and the result of `conn.Err()` on it. -/
structure ConnEnv where
  poolConnId : Nat
  poolConnErr : Option GoErr
  deriving DecidableEq, Repr

/-- `Cache.getConn`: if the cached field is nil, acquire a fresh connection
from the pool and check its error; on error return the fresh connection
with the stacked error, otherwise fall through and return the cached field
(still nil) with no error. Result: (returned conn, returned error, events). -/
def getConn (st : CacheState) (env : ConnEnv) : ConnVal × Option GoErr × List Event :=
  if st.conn = ConnVal.nil then
    match env.poolConnErr with
    | some e =>
        (ConnVal.live env.poolConnId, some (GoErr.withStack e), [Event.poolGet env.poolConnId])
    | none => (st.conn, none, [Event.poolGet env.poolConnId])
  else
    (st.conn, none, [])

/-- An `Item` passed to `Set`. -/
structure Item (α : Type) where
  Key : String
  Object : α
  Expiration : Int

/-- Collaborator behaviour for one `Set` call. -/
structure SetEnv where
  connEnv : ConnEnv
  setexErr : Option GoErr
  deriving DecidableEq, Repr

/-- Outcome of one `Set` call. -/
structure SetResult where
  state : CacheState
  ret : Option GoErr
  events : List Event
  deriving Repr

/-- `Cache.Set`: marshal the object (wrap failure), acquire a connection
(wrap failure), compute the effective expiration (floor of two minutes when
the requested duration is below one second), issue `SETEX key seconds bytes`,
close the returned connection on every path past the defer, and wrap a
write failure. -/
def Cache.Set {α : Type} (cm : CacheModel α) (st : CacheState) (env : SetEnv)
    (item : Item α) : SetResult :=
  match cm.Marshal item.Object with
  | Except.error e => { state := st, ret := some (GoErr.wrap "marshal failed" e), events := [] }
  | Except.ok b =>
    match getConn st env.connEnv with
    | (_, some e, ev) =>
        { state := st, ret := some (GoErr.wrap "getConn failed" e), events := ev }
    | (conn, none, ev) =>
      let expire := if item.Expiration < timeSecond then 2 * timeMinute else item.Expiration
      let evAll := ev ++ [Event.storeDo conn (DoReq.setex item.Key (durSeconds expire) b),
        Event.connClose conn]
      match env.setexErr with
      | some e => { state := st, ret := some (GoErr.wrap "Redis SETEX failed" e), events := evAll }
      | none => { state := st, ret := none, events := evAll }

/-- Collaborator behaviour for one `Get` call: `getReply` is the combined
result of `redis.Bytes(conn.Do("GET", key))`. -/
structure GetEnv where
  connEnv : ConnEnv
  getReply : Except GoErr (List Nat)
  deriving Repr

/-- Outcome of one `Get` call; `dest` is the destination object after the
call (Go writes through the `object` pointer). -/
structure GetOut (α : Type) where
  state : CacheState
  dest : α
  ret : Option GoErr
  events : List Event

/-- `Cache.Get`: acquire a connection (wrap failure), read the key; on
`redis.ErrNil` count a miss and return the `ErrCacheMiss` sentinel itself;
on any other read error return it wrapped, touching no counter; on success
count a hit, return success at once on an empty payload, otherwise
unmarshal into the destination and wrap an unmarshal failure. -/
def Cache.Get {α : Type} (cm : CacheModel α) (st : CacheState) (env : GetEnv)
    (key : String) (dest : α) : GetOut α :=
  match getConn st env.connEnv with
  | (_, some e, ev) =>
      { state := st, dest := dest, ret := some (GoErr.wrap "getConn failed" e), events := ev }
  | (conn, none, ev) =>
    let evPre := ev ++ [Event.storeDo conn (DoReq.get key)]
    match env.getReply with
    | Except.error e =>
      if e = GoErr.errNil then
        { state := { st with misses := st.misses + 1 }, dest := dest,
          ret := some GoErr.errCacheMiss, events := evPre ++ [Event.connClose conn] }
      else
        { state := st, dest := dest, ret := some (GoErr.wrap "Redis GET failed" e),
          events := evPre ++ [Event.connClose conn] }
    | Except.ok b =>
      let st1 := { st with hits := st.hits + 1 }
      if b.length = 0 then
        { state := st1, dest := dest, ret := none, events := evPre ++ [Event.connClose conn] }
      else
        match cm.Unmarshal b dest with
        | Except.error e =>
            { state := st1, dest := dest, ret := some (GoErr.wrap "unmarshal failed" e),
              events := evPre ++ [Event.unmarshalCall b, Event.connClose conn] }
        | Except.ok d =>
            { state := st1, dest := d, ret := none,
              events := evPre ++ [Event.unmarshalCall b, Event.connClose conn] }

/-- The `Stats` snapshot structure. -/
structure Stats where
  Hits : Nat
  Misses : Nat
  deriving DecidableEq, Repr

/-- `Cache.Stats`: read both counters into a snapshot. -/
def Cache.Stats (st : CacheState) : Stats :=
  { Hits := st.hits, Misses := st.misses }

/-- One public operation on a `Cache`, together with the collaborator
behaviour for that call. -/
inductive Op (α : Type) where
  | set : SetEnv → Item α → Op α
  | get : GetEnv → String → α → Op α
  | stats : Op α

/-- State transition of one operation. -/
def stepOp {α : Type} (cm : CacheModel α) (st : CacheState) : Op α → CacheState
  | Op.set env item => (Cache.Set cm st env item).state
  | Op.get env key dest => (Cache.Get cm st env key dest).state
  | Op.stats => st

/-- State after a sequence of operations. -/
def runOps {α : Type} (cm : CacheModel α) (st : CacheState) (ops : List (Op α)) : CacheState :=
  ops.foldl (stepOp cm) st

/-! Concrete fixtures used to evaluate the model at specific inputs. -/

/-- A concrete strategy over `Nat` objects: marshal to a singleton byte
list, unmarshal only singleton byte lists. -/
def cmNat : CacheModel Nat :=
  { Marshal := fun n => Except.ok [n],
    Unmarshal := fun b _ => match b with
      | [n] => Except.ok n
      | _ => Except.error (GoErr.base "bad bytes") }

/-- A strategy whose marshal function rejects every object. -/
def cmReject : CacheModel Nat :=
  { Marshal := fun _ => Except.error (GoErr.base "boom"),
    Unmarshal := fun _ d => Except.ok d }

/-- A healthy pool: connection id 0, no connection error. -/
def envConnOk : ConnEnv := { poolConnId := 0, poolConnErr := none }

/-- A `Set` call with a healthy pool and a successful write. -/
def envSetOk : SetEnv := { connEnv := envConnOk, setexErr := none }

/-- A `Get` call whose read answers the missing-key signal. -/
def envMiss : GetEnv := { connEnv := envConnOk, getReply := Except.error GoErr.errNil }

/-- A `Get` call whose read answers a zero-length payload. -/
def envEmpty : GetEnv := { connEnv := envConnOk, getReply := Except.ok [] }

/-- A `Get` call whose read answers bytes that `cmNat` cannot decode. -/
def envBad : GetEnv := { connEnv := envConnOk, getReply := Except.ok [1, 2] }

/-- A `Get` call whose read fails with a transport fault. -/
def envFail : GetEnv := { connEnv := envConnOk, getReply := Except.error (GoErr.base "io timeout") }

/-! Helper lemmas shared by the claim theorems. -/

/-- `getConn` emits either no event or exactly one pool acquisition. -/
theorem getConn_events (st : CacheState) (env : ConnEnv) :
    (getConn st env).2.2 = [] ∨ (getConn st env).2.2 = [Event.poolGet env.poolConnId] := by
  unfold getConn
  split
  · cases env.poolConnErr <;> simp
  · simp

/-- `Set` never changes the mutable fields of the cache. -/
theorem Set_state_eq {α : Type} (cm : CacheModel α) (st : CacheState) (env : SetEnv)
    (item : Item α) : (Cache.Set cm st env item).state = st := by
  unfold Cache.Set
  split
  · rfl
  · split
    · rfl
    · split <;> split <;> rfl

/-- `Get` leaves the state unchanged, or bumps exactly one counter by one. -/
theorem Get_state_cases {α : Type} (cm : CacheModel α) (st : CacheState) (env : GetEnv)
    (key : String) (dest : α) :
    (Cache.Get cm st env key dest).state = st
    ∨ (Cache.Get cm st env key dest).state = { st with misses := st.misses + 1 }
    ∨ (Cache.Get cm st env key dest).state = { st with hits := st.hits + 1 } := by
  unfold Cache.Get
  split
  · exact Or.inl rfl
  · split
    · split
      · exact Or.inr (Or.inl rfl)
      · exact Or.inl rfl
    · split
      · exact Or.inr (Or.inr rfl)
      · split
        · exact Or.inr (Or.inr rfl)
        · exact Or.inr (Or.inr rfl)

/-- One step never touches the connection field and never decreases a counter. -/
theorem stepOp_frame {α : Type} (cm : CacheModel α) (st : CacheState) (op : Op α) :
    (stepOp cm st op).conn = st.conn
    ∧ st.hits ≤ (stepOp cm st op).hits
    ∧ st.misses ≤ (stepOp cm st op).misses := by
  cases op with
  | set env item => rw [stepOp, Set_state_eq]; exact ⟨rfl, le_refl _, le_refl _⟩
  | get env key dest =>
      rw [stepOp]
      rcases Get_state_cases cm st env key dest with h | h | h <;> rw [h] <;>
        exact ⟨rfl, by simp, by simp⟩
  | stats => exact ⟨rfl, le_refl _, le_refl _⟩

/-- Along any run, the connection field is untouched and the counters are
monotone. -/
theorem runOps_frame {α : Type} (cm : CacheModel α) (ops : List (Op α)) (st : CacheState) :
    (runOps cm st ops).conn = st.conn
    ∧ st.hits ≤ (runOps cm st ops).hits
    ∧ st.misses ≤ (runOps cm st ops).misses := by
  induction ops generalizing st with
  | nil => exact ⟨rfl, le_refl _, le_refl _⟩
  | cons op ops ih =>
      have h1 := stepOp_frame cm st op
      have h2 := ih (stepOp cm st op)
      refine ⟨?_, le_trans h1.2.1 h2.2.1, le_trans h1.2.2 h2.2.2⟩
      · show (runOps cm (stepOp cm st op) ops).conn = st.conn
        rw [h2.1, h1.1]

/-- The effective TTL of `Set` in whole seconds: the two-minute floor
converts to exactly 120; otherwise the requested duration is converted. -/
theorem durSeconds_effective (d : Int) :
    durSeconds (if d < timeSecond then 2 * timeMinute else d)
      = if d < timeSecond then 120 else durSeconds d := by
  split
  · decide
  · rfl

/-- Branch equation: `Get` when connection acquisition fails. -/
theorem Get_eq_connfail {α : Type} (cm : CacheModel α) (st : CacheState) (env : GetEnv)
    (key : String) (dest : α) (conn : ConnVal) (ev : List Event) (e : GoErr)
    (hgc : getConn st env.connEnv = (conn, some e, ev)) :
    Cache.Get cm st env key dest =
      { state := st, dest := dest, ret := some (GoErr.wrap "getConn failed" e),
        events := ev } := by
  unfold Cache.Get
  rw [hgc]

/-- Branch equation: `Get` on the missing-key reply. -/
theorem Get_eq_miss {α : Type} (cm : CacheModel α) (st : CacheState) (env : GetEnv)
    (key : String) (dest : α) (conn : ConnVal) (ev : List Event)
    (hgc : getConn st env.connEnv = (conn, none, ev))
    (hr : env.getReply = Except.error GoErr.errNil) :
    Cache.Get cm st env key dest =
      { state := { st with misses := st.misses + 1 }, dest := dest,
        ret := some GoErr.errCacheMiss,
        events := ev ++ [Event.storeDo conn (DoReq.get key), Event.connClose conn] } := by
  unfold Cache.Get
  rw [hgc, hr]
  simp

/-- Branch equation: `Get` on any other read failure. -/
theorem Get_eq_readfail {α : Type} (cm : CacheModel α) (st : CacheState) (env : GetEnv)
    (key : String) (dest : α) (conn : ConnVal) (ev : List Event) (e : GoErr)
    (hgc : getConn st env.connEnv = (conn, none, ev))
    (hr : env.getReply = Except.error e) (hne : e ≠ GoErr.errNil) :
    Cache.Get cm st env key dest =
      { state := st, dest := dest, ret := some (GoErr.wrap "Redis GET failed" e),
        events := ev ++ [Event.storeDo conn (DoReq.get key), Event.connClose conn] } := by
  unfold Cache.Get
  rw [hgc, hr]
  simp [hne]

/-- Branch equation: `Get` on a zero-length payload. -/
theorem Get_eq_empty {α : Type} (cm : CacheModel α) (st : CacheState) (env : GetEnv)
    (key : String) (dest : α) (conn : ConnVal) (ev : List Event)
    (hgc : getConn st env.connEnv = (conn, none, ev))
    (hr : env.getReply = Except.ok []) :
    Cache.Get cm st env key dest =
      { state := { st with hits := st.hits + 1 }, dest := dest, ret := none,
        events := ev ++ [Event.storeDo conn (DoReq.get key), Event.connClose conn] } := by
  unfold Cache.Get
  rw [hgc, hr]
  simp

/-- Branch equation: `Get` on a non-empty payload the strategy rejects. -/
theorem Get_eq_decodefail {α : Type} (cm : CacheModel α) (st : CacheState) (env : GetEnv)
    (key : String) (dest : α) (conn : ConnVal) (ev : List Event) (b : List Nat) (e : GoErr)
    (hgc : getConn st env.connEnv = (conn, none, ev))
    (hr : env.getReply = Except.ok b) (hb : b ≠ [])
    (hu : cm.Unmarshal b dest = Except.error e) :
    Cache.Get cm st env key dest =
      { state := { st with hits := st.hits + 1 }, dest := dest,
        ret := some (GoErr.wrap "unmarshal failed" e),
        events := ev ++ [Event.storeDo conn (DoReq.get key), Event.unmarshalCall b,
          Event.connClose conn] } := by
  unfold Cache.Get
  rw [hgc, hr]
  simp [List.length_eq_zero, hb, hu]

/-- Branch equation: `Get` on a non-empty payload the strategy accepts. -/
theorem Get_eq_decodeok {α : Type} (cm : CacheModel α) (st : CacheState) (env : GetEnv)
    (key : String) (dest : α) (conn : ConnVal) (ev : List Event) (b : List Nat) (d : α)
    (hgc : getConn st env.connEnv = (conn, none, ev))
    (hr : env.getReply = Except.ok b) (hb : b ≠ [])
    (hu : cm.Unmarshal b dest = Except.ok d) :
    Cache.Get cm st env key dest =
      { state := { st with hits := st.hits + 1 }, dest := d, ret := none,
        events := ev ++ [Event.storeDo conn (DoReq.get key), Event.unmarshalCall b,
          Event.connClose conn] } := by
  unfold Cache.Get
  rw [hgc, hr]
  simp [List.length_eq_zero, hb, hu]

/-! Claim theorems. -/

/-- Claim C1 counterexample: at Expiration = 16777216s + 999999999ns (at
least one second, so the floor does not apply), the TTL sent to the store
is 16777217 — binary64 rounding in `Seconds()` carries the value up to the
next whole second — while the requested Expiration truncated to whole
seconds is 16777216. -/
theorem C1_counterexample :
    (Cache.Set cmNat NewRedisCache envSetOk
        { Key := "k", Object := 7, Expiration := 16777216 * timeSecond + 999999999 }).events
      = [Event.poolGet 0,
        Event.storeDo ConnVal.nil (DoReq.setex "k" 16777217 [7]),
        Event.connClose ConnVal.nil]
    ∧ ¬((16777216 * timeSecond + 999999999 : Int) < timeSecond)
    ∧ (16777217 : Int) ≠ Int.tdiv (16777216 * timeSecond + 999999999) timeSecond := by
  decide

/-- Claim C1 (amended): for every Item passed to `Set`, the TTL sent to the
store is 120 seconds when the requested Expiration is below one second, and
otherwise is `int(Expiration.Seconds())` computed in binary64 — the float64
seconds value truncated toward zero — which can exceed the Expiration
truncated to whole seconds when float rounding carries the seconds value up
to the next integer. -/
theorem C1_set_ttl {α : Type} (cm : CacheModel α) (st : CacheState) (env : SetEnv)
    (item : Item α) (conn : ConnVal) (k : String) (ttl : Int) (b : List Nat)
    (h : Event.storeDo conn (DoReq.setex k ttl b) ∈ (Cache.Set cm st env item).events) :
    ttl = if item.Expiration < timeSecond then 120 else durSeconds item.Expiration := by
  unfold Cache.Set at h
  split at h
  · simp at h
  · split at h
    · rename_i heq
      have hg := getConn_events st env.connEnv
      rw [heq] at hg
      simp at hg
      rcases hg with hg | hg <;> rw [hg] at h <;> simp at h
    · rename_i heq
      have hg := getConn_events st env.connEnv
      rw [heq] at hg
      simp at hg
      split at h <;> split at h <;>
          rcases hg with hg | hg <;> rw [hg] at h <;> simp at h <;>
        · rcases h with ⟨-, -, h3, -⟩
          first
          | · rw [if_pos (by assumption), h3]
              try decide
          | · rw [if_neg (by assumption), h3]
              try rfl

/-- Witness for C1: a 5-second expiration yields TTL 5, a 500-millisecond
expiration yields TTL 120. -/
theorem C1_witness :
    ((5 : Int) = if (5 * timeSecond : Int) < timeSecond then 120
      else durSeconds (5 * timeSecond))
    ∧ ((120 : Int) = if (500000000 : Int) < timeSecond then 120
      else durSeconds 500000000) :=
  ⟨C1_set_ttl cmNat NewRedisCache envSetOk { Key := "k", Object := 7, Expiration := 5 * timeSecond }
      ConnVal.nil "k" 5 [7] (by decide),
    C1_set_ttl cmNat NewRedisCache envSetOk { Key := "k", Object := 7, Expiration := 500000000 }
      ConnVal.nil "k" 120 [7] (by decide)⟩

/-- Claim C2: when the store answers the read with its missing-key signal,
`Get` increments the miss counter by exactly one, leaves the hit counter
unchanged, and returns the `ErrCacheMiss` sentinel itself, unwrapped. -/
theorem C2_miss {α : Type} (cm : CacheModel α) (st : CacheState) (env : GetEnv)
    (key : String) (dest : α)
    (hc : (getConn st env.connEnv).2.1 = none)
    (hr : env.getReply = Except.error GoErr.errNil) :
    (Cache.Get cm st env key dest).state.misses = st.misses + 1
    ∧ (Cache.Get cm st env key dest).state.hits = st.hits
    ∧ (Cache.Get cm st env key dest).ret = some GoErr.errCacheMiss := by
  rcases hgc : getConn st env.connEnv with ⟨conn, gerr, ev⟩
  rw [hgc] at hc
  simp at hc
  subst hc
  rw [Get_eq_miss cm st env key dest conn ev hgc hr]
  exact ⟨rfl, rfl, rfl⟩

/-- Witness for C2 at a concrete miss on a fresh cache. -/
theorem C2_witness :
    (Cache.Get cmNat NewRedisCache envMiss "k" 3).state.misses = 0 + 1
    ∧ (Cache.Get cmNat NewRedisCache envMiss "k" 3).state.hits = 0
    ∧ (Cache.Get cmNat NewRedisCache envMiss "k" 3).ret = some GoErr.errCacheMiss :=
  C2_miss cmNat NewRedisCache envMiss "k" 3 rfl rfl

/-- Claim C3: whenever the store read succeeds, `Get` increments the hit
counter by exactly one and leaves the miss counter unchanged; when the
subsequent decode of a non-empty payload fails, `Get` returns the decode
error wrapped and the hit increment is kept. -/
theorem C3_hit {α : Type} (cm : CacheModel α) (st : CacheState) (env : GetEnv)
    (key : String) (dest : α) (b : List Nat)
    (hc : (getConn st env.connEnv).2.1 = none)
    (hr : env.getReply = Except.ok b) :
    (Cache.Get cm st env key dest).state.hits = st.hits + 1
    ∧ (Cache.Get cm st env key dest).state.misses = st.misses
    ∧ ∀ e, cm.Unmarshal b dest = Except.error e → b ≠ [] →
        (Cache.Get cm st env key dest).ret = some (GoErr.wrap "unmarshal failed" e) := by
  rcases hgc : getConn st env.connEnv with ⟨conn, gerr, ev⟩
  rw [hgc] at hc
  simp at hc
  subst hc
  have hcount : (Cache.Get cm st env key dest).state.hits = st.hits + 1
      ∧ (Cache.Get cm st env key dest).state.misses = st.misses := by
    by_cases hb : b = []
    · subst hb
      rw [Get_eq_empty cm st env key dest conn ev hgc hr]
      exact ⟨rfl, rfl⟩
    · rcases hu : cm.Unmarshal b dest with e | d
      · rw [Get_eq_decodefail cm st env key dest conn ev b e hgc hr hb hu]
        exact ⟨rfl, rfl⟩
      · rw [Get_eq_decodeok cm st env key dest conn ev b d hgc hr hb hu]
        exact ⟨rfl, rfl⟩
  refine ⟨hcount.1, hcount.2, ?_⟩
  intro e hu hb
  rw [Get_eq_decodefail cm st env key dest conn ev b e hgc hr hb hu]

/-- Witness for C3 at a concrete undecodable payload. -/
theorem C3_witness :
    (Cache.Get cmNat NewRedisCache envBad "k" 3).state.hits = 0 + 1
    ∧ (Cache.Get cmNat NewRedisCache envBad "k" 3).state.misses = 0
    ∧ (Cache.Get cmNat NewRedisCache envBad "k" 3).ret
        = some (GoErr.wrap "unmarshal failed" (GoErr.base "bad bytes")) :=
  have h := C3_hit cmNat NewRedisCache envBad "k" 3 [1, 2] rfl rfl
  ⟨h.1, h.2.1, h.2.2 (GoErr.base "bad bytes") rfl (by decide)⟩

/-- Claim C4: when the store read succeeds with a zero-length byte sequence,
`Get` returns success, increments the hit counter, never invokes the
unmarshal function, and leaves the destination unmodified. -/
theorem C4_empty_payload {α : Type} (cm : CacheModel α) (st : CacheState) (env : GetEnv)
    (key : String) (dest : α)
    (hc : (getConn st env.connEnv).2.1 = none)
    (hr : env.getReply = Except.ok []) :
    (Cache.Get cm st env key dest).ret = none
    ∧ (Cache.Get cm st env key dest).state.hits = st.hits + 1
    ∧ (Cache.Get cm st env key dest).dest = dest
    ∧ ∀ b, Event.unmarshalCall b ∉ (Cache.Get cm st env key dest).events := by
  rcases hgc : getConn st env.connEnv with ⟨conn, gerr, ev⟩
  rw [hgc] at hc
  simp at hc
  subst hc
  rw [Get_eq_empty cm st env key dest conn ev hgc hr]
  refine ⟨rfl, rfl, rfl, ?_⟩
  intro b hb
  have hg := getConn_events st env.connEnv
  rw [hgc] at hg
  simp at hg
  rcases hg with hg | hg <;> subst hg <;> simp at hb

/-- Witness for C4 at a concrete empty payload. -/
theorem C4_witness :
    (Cache.Get cmNat NewRedisCache envEmpty "k" 3).ret = none
    ∧ (Cache.Get cmNat NewRedisCache envEmpty "k" 3).state.hits = 0 + 1
    ∧ (Cache.Get cmNat NewRedisCache envEmpty "k" 3).dest = 3
    ∧ Event.unmarshalCall [9] ∉ (Cache.Get cmNat NewRedisCache envEmpty "k" 3).events :=
  have h := C4_empty_payload cmNat NewRedisCache envEmpty "k" 3 rfl rfl
  ⟨h.1, h.2.1, h.2.2.1, h.2.2.2 [9]⟩

/-- Claim C5, evaluated at the failing input: on a `Get` against a fresh
cache with a healthy pool, connection 0 is acquired from the pool, yet the
single store request and the close both target the nil cached field, and no
event ever uses or releases the acquired connection. -/
theorem C5_conn_defect :
    (Cache.Get cmNat NewRedisCache envMiss "k" 3).events
      = [Event.poolGet 0, Event.storeDo ConnVal.nil (DoReq.get "k"),
        Event.connClose ConnVal.nil]
    ∧ Event.storeDo (ConnVal.live 0) (DoReq.get "k")
        ∉ (Cache.Get cmNat NewRedisCache envMiss "k" 3).events
    ∧ Event.connClose (ConnVal.live 0)
        ∉ (Cache.Get cmNat NewRedisCache envMiss "k" 3).events := by
  decide

/-- Claim C6: with a nil cached connection field and a successful pool
acquisition, `getConn` acquires a fresh connection, discards it, and
returns the original nil field with no error; no sequence of operations
ever populates the field. -/
theorem C6_conn_never_populated {α : Type} (cm : CacheModel α) (st : CacheState)
    (env : ConnEnv) (ops : List (Op α))
    (h : st.conn = ConnVal.nil) (he : env.poolConnErr = none) :
    getConn st env = (ConnVal.nil, none, [Event.poolGet env.poolConnId])
    ∧ (runOps cm st ops).conn = ConnVal.nil := by
  constructor
  · simp [getConn, h, he]
  · rw [(runOps_frame cm ops st).1, h]

/-- Witness for C6 on a fresh cache running one operation. -/
theorem C6_witness :
    getConn NewRedisCache envConnOk = (ConnVal.nil, none, [Event.poolGet 0])
    ∧ (runOps cmNat NewRedisCache [Op.get envMiss "k" 3]).conn = ConnVal.nil :=
  C6_conn_never_populated cmNat NewRedisCache envConnOk [Op.get envMiss "k" 3] rfl rfl

/-- Claim C7: `Set` never changes the hit or miss counter, and along any
sequence of operations both counters are monotonically non-decreasing. -/
theorem C7_counters_monotone {α : Type} (cm : CacheModel α) (st : CacheState)
    (env : SetEnv) (item : Item α) (ops : List (Op α)) :
    (Cache.Set cm st env item).state.hits = st.hits
    ∧ (Cache.Set cm st env item).state.misses = st.misses
    ∧ st.hits ≤ (runOps cm st ops).hits
    ∧ st.misses ≤ (runOps cm st ops).misses := by
  refine ⟨?_, ?_, (runOps_frame cm ops st).2.1, (runOps_frame cm ops st).2.2⟩
  · rw [Set_state_eq]
  · rw [Set_state_eq]

/-- Claim C8: when the store read fails for any reason other than the
missing-key signal, neither counter changes and `Get` returns the fault
wrapped as the read error. -/
theorem C8_read_failure {α : Type} (cm : CacheModel α) (st : CacheState) (env : GetEnv)
    (key : String) (dest : α) (e : GoErr)
    (hc : (getConn st env.connEnv).2.1 = none)
    (hr : env.getReply = Except.error e)
    (hne : e ≠ GoErr.errNil) :
    (Cache.Get cm st env key dest).state.hits = st.hits
    ∧ (Cache.Get cm st env key dest).state.misses = st.misses
    ∧ (Cache.Get cm st env key dest).ret = some (GoErr.wrap "Redis GET failed" e) := by
  rcases hgc : getConn st env.connEnv with ⟨conn, gerr, ev⟩
  rw [hgc] at hc
  simp at hc
  subst hc
  rw [Get_eq_readfail cm st env key dest conn ev e hgc hr hne]
  exact ⟨rfl, rfl, rfl⟩

/-- Witness for C8 at a concrete transport fault. -/
theorem C8_witness :
    (Cache.Get cmNat NewRedisCache envFail "k" 3).state.hits = 0
    ∧ (Cache.Get cmNat NewRedisCache envFail "k" 3).state.misses = 0
    ∧ (Cache.Get cmNat NewRedisCache envFail "k" 3).ret
        = some (GoErr.wrap "Redis GET failed" (GoErr.base "io timeout")) :=
  C8_read_failure cmNat NewRedisCache envFail "k" 3
    (GoErr.base "io timeout") rfl rfl (by decide)

/-- Claim C9 counterexample: when the marshal function fails with a given
error, `Set` does not return that error value itself. -/
theorem C9_counterexample :
    cmReject.Marshal 7 = Except.error (GoErr.base "boom")
    ∧ (Cache.Set cmReject NewRedisCache envSetOk
        { Key := "k", Object := 7, Expiration := 5 * timeSecond }).ret
      ≠ some (GoErr.base "boom") :=
  ⟨rfl, by decide⟩

/-- Claim C9 (amended): when the marshal function rejects the object, `Set`
returns that error wrapped with the message "marshal failed", performs no
retry, never acquires a connection or contacts the store, and leaves all
cache state unchanged. -/
theorem C9_marshal_failure {α : Type} (cm : CacheModel α) (st : CacheState) (env : SetEnv)
    (item : Item α) (e : GoErr) (h : cm.Marshal item.Object = Except.error e) :
    (Cache.Set cm st env item).ret = some (GoErr.wrap "marshal failed" e)
    ∧ (Cache.Set cm st env item).state = st
    ∧ (Cache.Set cm st env item).events = [] := by
  unfold Cache.Set
  rw [h]
  exact ⟨rfl, rfl, rfl⟩

/-- Witness for C9 at a concrete rejected object. -/
theorem C9_witness :
    (Cache.Set cmReject NewRedisCache envSetOk
        { Key := "w", Object := 9, Expiration := timeSecond }).ret
      = some (GoErr.wrap "marshal failed" (GoErr.base "boom"))
    ∧ (Cache.Set cmReject NewRedisCache envSetOk
        { Key := "w", Object := 9, Expiration := timeSecond }).state = NewRedisCache
    ∧ (Cache.Set cmReject NewRedisCache envSetOk
        { Key := "w", Object := 9, Expiration := timeSecond }).events = [] :=
  C9_marshal_failure cmReject NewRedisCache envSetOk
    { Key := "w", Object := 9, Expiration := timeSecond } (GoErr.base "boom") rfl

/-- Claim C10: a `Get` that returns the miss sentinel or a wrapped read
error leaves the destination unmodified, and the unmarshal function is
invoked only on the bytes of a successful, non-empty read. -/
theorem C10_get_frame {α : Type} (cm : CacheModel α) (st : CacheState) (env : GetEnv)
    (key : String) (dest : α) :
    ((Cache.Get cm st env key dest).ret = some GoErr.errCacheMiss →
      (Cache.Get cm st env key dest).dest = dest)
    ∧ (∀ e, (Cache.Get cm st env key dest).ret = some (GoErr.wrap "Redis GET failed" e) →
      (Cache.Get cm st env key dest).dest = dest)
    ∧ (∀ b, Event.unmarshalCall b ∈ (Cache.Get cm st env key dest).events →
      env.getReply = Except.ok b ∧ b ≠ []) := by
  have hg := getConn_events st env.connEnv
  rcases hgc : getConn st env.connEnv with ⟨conn, gerr, ev⟩
  rw [hgc] at hg
  simp at hg
  have hnoum : ∀ b, Event.unmarshalCall b ∉ ev := by
    intro b hb
    rcases hg with hg | hg <;> subst hg <;> simp at hb
  cases gerr with
  | some e =>
      rw [Get_eq_connfail cm st env key dest conn ev e hgc]
      exact ⟨fun _ => rfl, fun _ _ => rfl, fun b hb => absurd hb (hnoum b)⟩
  | none =>
      rcases hrep : env.getReply with e | b
      · by_cases hne : e = GoErr.errNil
        · subst hne
          rw [Get_eq_miss cm st env key dest conn ev hgc hrep]
          refine ⟨fun _ => rfl, fun _ _ => rfl, ?_⟩
          intro b hb
          simp at hb
          exact absurd hb (hnoum b)
        · rw [Get_eq_readfail cm st env key dest conn ev e hgc hrep hne]
          refine ⟨fun _ => rfl, fun _ _ => rfl, ?_⟩
          intro b hb
          simp at hb
          exact absurd hb (hnoum b)
      · by_cases hb0 : b = []
        · subst hb0
          rw [Get_eq_empty cm st env key dest conn ev hgc hrep]
          refine ⟨fun _ => rfl, fun _ _ => rfl, ?_⟩
          intro b hb
          simp at hb
          exact absurd hb (hnoum b)
        · rcases hu : cm.Unmarshal b dest with e | d
          · rw [Get_eq_decodefail cm st env key dest conn ev b e hgc hrep hb0 hu]
            refine ⟨fun _ => rfl, fun _ _ => rfl, ?_⟩
            intro b1 hb1
            simp at hb1
            rcases hb1 with hb1 | hb1
            · exact absurd hb1 (hnoum b1)
            · subst hb1
              exact ⟨rfl, hb0⟩
          · rw [Get_eq_decodeok cm st env key dest conn ev b d hgc hrep hb0 hu]
            refine ⟨fun hcontra => by simp at hcontra, fun _ hcontra => by simp at hcontra, ?_⟩
            intro b1 hb1
            simp at hb1
            rcases hb1 with hb1 | hb1
            · exact absurd hb1 (hnoum b1)
            · subst hb1
              exact ⟨rfl, hb0⟩

/-- Witness for C10: the destination survives a miss and a read failure,
and the unmarshal call on an undecodable payload is traced back to a
successful non-empty read. -/
theorem C10_witness :
    (Cache.Get cmNat NewRedisCache envMiss "q" 5).dest = 5
    ∧ (Cache.Get cmNat NewRedisCache envFail "q" 5).dest = 5
    ∧ (envBad.getReply = Except.ok [1, 2] ∧ [1, 2] ≠ ([] : List Nat)) :=
  ⟨(C10_get_frame cmNat NewRedisCache envMiss "q" 5).1 rfl,
    (C10_get_frame cmNat NewRedisCache envFail "q" 5).2.1 (GoErr.base "io timeout") rfl,
    (C10_get_frame cmNat NewRedisCache envBad "q" 5).2.2 [1, 2] (by decide)⟩

end RCache

